import Mathlib

/-!
Shallow embedding of the clickhouse-subsquid-store core
(`src/core/ClickhouseDatabase.ts`, `src/core/ValidBlocksManager.ts`).

Heights are modelled as `Int` (JavaScript numbers used as block heights,
with `-1` as a sentinel).  The in-memory JavaScript `Map` of the
valid-blocks registry is modelled as an insertion-ordered association
list, mirroring `Map.set` / `Map.delete` semantics.  Database side
effects are modelled as explicit state: the persisted checkpoint rows
become append-only logs (a "latest revision wins" read takes the last
entry), data tables become association lists from base table name to the
list of rows.  Wall-clock quantities (`durationMs`, row timestamps) are
not modelled.  The `afterMigration` hook only observes the result and
has no effect on the store, so it is not modelled either.
-/

namespace ClickhouseSubsquid

/-- JSON-serializable field values occurring on producer block objects.
The `big` constructor models a JavaScript `BigInt` (for example
`baseFeePerGas`), which `JSON.stringify` cannot serialize. -/
inductive JVal where
  | num (n : Int)
  | str (s : String)
  | big (n : Int)
  deriving Repr, DecidableEq

/-- A block reference as received from the producer: `height`, `hash`,
the optional `parent` hash, plus arbitrary producer-added fields
(`extra`, such as gas fields carried on Subsquid block objects). -/
structure BlockRef where
  height : Int
  hash : String
  parent : Option String := none
  extra : List (String × JVal) := []
  deriving Repr, DecidableEq

/-- Hot-chain entry as persisted in the live checkpoint after the
`saveStatus` sanitization: only `height` and `hash`. -/
structure SanBlock where
  height : Int
  hash : String
  deriving Repr, DecidableEq

/-- A row of a hot or cold data table.  Only the `height` column (used
by migration cutoffs) and the `hash` column (used by the cutoff-hash
lookup) are modelled. -/
structure Row where
  height : Int
  hash : String
  deriving Repr, DecidableEq

/-- JavaScript `Map.set` on an insertion-ordered association list:
updates the value in place when the key is present, appends otherwise. -/
def mapSet (m : List (Int × String)) (k : Int) (v : String) : List (Int × String) :=
  if m.any (fun p => p.1 == k) then
    m.map (fun p => if p.1 == k then (k, v) else p)
  else
    m ++ [(k, v)]

/-- JavaScript `Map.get` (`none` models `undefined`). -/
def mapGet (m : List (Int × String)) (k : Int) : Option String :=
  (m.find? (fun p => p.1 == k)).map (fun p => p.2)

/-- In-memory state of a `ValidBlocksManager`: the `finalityDepth`
configuration and the `validBlocks` map from height to hash.  The
backing `valid_blocks` table mirrors this map (inserts, reorg deletes
and prune deletes target exactly the same entries), so the registry is
modelled once. -/
structure Registry where
  finalityDepth : Int
  validBlocks : List (Int × String)
  deriving Repr, DecidableEq

/-- ValidBlocksManager.pruneOldBlocks: removes entries with
`height < currentHeight - finalityDepth` from the map (and issues the
matching delete against the backing table). -/
def Registry.pruneOldBlocks (r : Registry) (currentHeight : Int) : Registry :=
  let threshold := currentHeight - r.finalityDepth
  { r with validBlocks := r.validBlocks.filter (fun p => !decide (p.1 < threshold)) }

/-- ValidBlocksManager.addBlock: inserts the pair into the map (the
database insert carries the same data), then prunes old entries with
the new height as `currentHeight`. -/
def Registry.addBlock (r : Registry) (height : Int) (hash : String) : Registry :=
  Registry.pruneOldBlocks { r with validBlocks := mapSet r.validBlocks height hash } height

/-- JavaScript `Math.max(...xs)` over a list of heights.  The empty case
is unreachable in `addBlocks` (guarded by the `blocks.length === 0`
early return); `0` stands in for `-Infinity` there. -/
def listMax : List Int → Int
  | [] => 0
  | h :: t => t.foldl max h

/-- ValidBlocksManager.addBlocks: batch insert followed by a prune at
the maximum height of the batch; empty batches return immediately. -/
def Registry.addBlocks (r : Registry) (blocks : List BlockRef) : Registry :=
  if blocks.isEmpty then r
  else
    let r1 := { r with
      validBlocks := blocks.foldl (fun m b => mapSet m b.height b.hash) r.validBlocks }
    Registry.pruneOldBlocks r1 (listMax (blocks.map BlockRef.height))

/-- ValidBlocksManager.handleReorg: removes all entries with
`height >= reorgHeight` from the map (and the backing table), then
inserts the new blocks through `addBlocks`. -/
def Registry.handleReorg (r : Registry) (reorgHeight : Int) (newBlocks : List BlockRef) :
    Registry :=
  let r1 := { r with validBlocks := r.validBlocks.filter (fun p => !decide (reorgHeight ≤ p.1)) }
  if newBlocks.isEmpty then r1 else r1.addBlocks newBlocks

/-- ValidBlocksManager.isValidBlock: the stored hash at this height is
strictly equal to the given hash (`undefined === hash` is false). -/
def Registry.isValidBlock (r : Registry) (height : Int) (hash : String) : Bool :=
  mapGet r.validBlocks height == some hash

/-- ValidBlocksManager.clear: removes every entry for this processor. -/
def Registry.clear (r : Registry) : Registry :=
  { r with validBlocks := [] }

/-- ClickhouseDatabase.detectReorg: a reorg is flagged exactly when both
the hot chain and the new batch are nonempty and the first new block
does not advance past the current tip. -/
def detectReorg (hotBlocks newBlocks : List BlockRef) : Bool :=
  if hotBlocks.isEmpty || newBlocks.isEmpty then
    false
  else
    match hotBlocks.getLast?, newBlocks.head? with
    | some currentTip, some newBlock => decide (newBlock.height ≤ currentTip.height)
    | _, _ => false

/-- ClickhouseDatabase.findCommonAncestor: the source builds a map from
hash to height over the hot chain but only ever queries membership, so
the hash list suffices; the running maximum starts at the finalized
height and takes in the height of every new block whose hash is known. -/
def findCommonAncestor (finalizedHeight : Int) (hotBlocks newBlocks : List BlockRef) : Int :=
  let knownHashes := hotBlocks.map BlockRef.hash
  newBlocks.foldl
    (fun acc b => if knownHashes.contains b.hash then max acc b.height else acc)
    finalizedHeight

/-- Persisted row of the live-status table.  The `hot_blocks` column
stores the sanitized hot chain (its JSON text form is modelled
separately by `saveStatusHotBlocksJson?`); `timestamp` is wall clock
and not modelled. -/
structure StatusRow where
  height : Int
  hash : String
  parent_hash : String
  hot_blocks : List SanBlock
  finalized_height : Int
  deriving Repr, DecidableEq

/-- The `DatabaseState` interface from `types.ts`. -/
structure DatabaseState where
  height : Int
  hash : String
  top : List BlockRef
  finalizedHeight : Option Int := none
  deriving Repr, DecidableEq

/-- The `HotTxInfo` interface from `types.ts`. -/
structure HotTxInfo where
  finalizedHead : BlockRef
  baseHead : BlockRef
  newBlocks : List BlockRef
  deriving Repr, DecidableEq

/-- Per-table migration statistics inside a `MigrationResult`. -/
structure TableStat where
  name : String
  rows : Int
  deriving Repr, DecidableEq

/-- The `MigrationResult` interface from `types.ts` (`durationMs` is
wall clock and not modelled). -/
structure MigrationResult where
  migrated : Int
  cutoffHeight : Int
  tables : List TableStat
  deriving Repr, DecidableEq

/-- The `MigrationContext` interface from `types.ts`. -/
structure MigCtx where
  currentHeight : Int
  finalizedHeight : Int
  hotTableRows : Int
  blocksSinceLastMigration : Int
  isAtChainTip : Bool

/-- Modelled state of a `ClickhouseDatabase` instance together with the
backing store.  `hotTables` / `coldTables` map a discovered base table
name to the rows of `{network}_hot_{name}` / `{network}_cold_{name}`
(a missing entry models a not-yet-created physical table); `liveWrites`
and `coldWrites` are the insert logs of the two checkpoint tables;
`dataWrites` logs the flushed data-table inserts. -/
structure DBPre where
  isAtChainTip : Bool
  autoMigrate : Bool
  migrationOnFinality : Bool
  migrationInterval : Int
  hotBlocksDepth : Int
  migrateableTables : List String
  hotBlocks : List BlockRef
  finalizedHeight : Int
  registry : Registry
  blocksSinceLastMigration : Int
  lastMigrationHeight : Int
  hotTables : List (String × List Row)
  coldTables : List (String × List Row)
  liveWrites : List StatusRow
  coldWrites : List (Int × String)
  dataWrites : List String
  deriving Repr, DecidableEq

/-- The migration hooks (`afterMigration` only observes the result and
`transformRows` replaces the copy step for unchanged row multisets;
neither affects the state components the claims speak about, so only
`beforeMigration` and `customMigration` are modelled). -/
structure Hooks where
  beforeMigration : Option (MigCtx → Bool) := none
  customMigration : Option (DBPre → MigrationResult × DBPre) := none

/-- Strip a block down to the two persisted fields (the `saveStatus`
sanitization of `state.top`). -/
def sanitizeBlock (b : BlockRef) : SanBlock :=
  { height := b.height, hash := b.hash }

/-- The row written by ClickhouseDatabase.saveStatus.  Note the
`finalized_height` column is written from the instance field, not from
the `state` argument, and `parent_hash` is read off the last hot block
(empty string when absent). -/
def mkStatusRow (db : DBPre) (state : DatabaseState) : StatusRow :=
  { height := state.height
    hash := state.hash
    parent_hash :=
      match state.top.getLast? with
      | some b => b.parent.getD ""
      | none => ""
    hot_blocks := state.top.map sanitizeBlock
    finalized_height := db.finalizedHeight }

/-- ClickhouseDatabase.saveStatus: inserts one revision into the live
status table. -/
def saveStatus (db : DBPre) (state : DatabaseState) : DBPre :=
  { db with liveWrites := db.liveWrites ++ [mkStatusRow db state] }

/-- Text form of a field value under `JSON.stringify`; a `BigInt` value
makes the whole serialization throw, modelled by `none`. -/
def jvalString? : JVal → Option String
  | .num n => some (toString n)
  | .str s => some ("\"" ++ s ++ "\"")
  | .big _ => none

/-- Serialize one `key: value` member. -/
def fieldString? (f : String × JVal) : Option String :=
  (jvalString? f.2).map (fun s => "\"" ++ f.1 ++ "\":" ++ s)

/-- Sequence the member serializations: the whole serialization throws
as soon as any member does. -/
def seqStrings : List (Option String) → Option (List String)
  | [] => some []
  | none :: _ => none
  | some s :: rest => (seqStrings rest).map (fun t => s :: t)

/-- Serialize a JSON object from its field list. -/
def objectString? (fs : List (String × JVal)) : Option String :=
  (seqStrings (fs.map fieldString?)).map
    (fun parts => "\x7b" ++ String.intercalate "," parts ++ "\x7d")

/-- Field list of a raw producer block as `JSON.stringify` would see it:
`height` and `hash` followed by every producer-added field. -/
def rawBlockFields (b : BlockRef) : List (String × JVal) :=
  [("height", JVal.num b.height), ("hash", JVal.str b.hash)] ++ b.extra

/-- Field list of a sanitized hot-chain entry. -/
def sanitizedBlockFields (b : SanBlock) : List (String × JVal) :=
  [("height", JVal.num b.height), ("hash", JVal.str b.hash)]

/-- Serialize a JSON array of objects from their field lists. -/
def arrayString? (bs : List (List (String × JVal))) : Option String :=
  (seqStrings (bs.map objectString?)).map
    (fun parts => "[" ++ String.intercalate "," parts ++ "]")

/-- The `hot_blocks` JSON text produced by `saveStatus` for a given
state: `JSON.stringify` applied to the sanitized hot chain. -/
def saveStatusHotBlocksJson? (state : DatabaseState) : Option String :=
  arrayString? ((state.top.map sanitizeBlock).map sanitizedBlockFields)

/-- Look a base table name up in a table map (a `none` result models a
query hitting a not-yet-created table, i.e. an UNKNOWN_TABLE error). -/
def tableLookup (ts : List (String × List Row)) (name : String) : Option (List Row) :=
  (ts.find? (fun p => p.1 == name)).map (fun p => p.2)

/-- Replace the rows of one table in a table map. -/
def tableUpdate (ts : List (String × List Row)) (name : String) (f : List Row → List Row) :
    List (String × List Row) :=
  ts.map (fun p => if p.1 == name then (p.1, f p.2) else p)

/-- Result of `SELECT max(height) FROM t`: the maximum of the height
column, with the ClickHouse aggregate default `0` on an empty table. -/
def sqlMaxHeight (rows : List Row) : Int :=
  match rows.map Row.height with
  | [] => 0
  | h :: t => t.foldl max h

/-- ClickhouseDatabase.getLatestColdBlockHeight: the largest
`max(height)` over all existing cold tables, `-1` when none reports a
larger value; missing tables are skipped. -/
def getLatestColdBlockHeight (db : DBPre) : Int :=
  db.migrateableTables.foldl
    (fun acc t =>
      match tableLookup db.coldTables t with
      | none => acc
      | some rows =>
        let mh := sqlMaxHeight rows
        if acc < mh then mh else acc)
    (-1)

/-- ClickhouseDatabase.getColdStatus: the latest revision of the cold
checkpoint, or `none` when absent. -/
def getColdStatus (db : DBPre) : Option (Int × String) :=
  db.coldWrites.getLast?

/-- The cold resume point used by the stale-restart reconciler: the
cold checkpoint when present, otherwise the fallback height scan with
an empty hash. -/
def coldCheckpoint (db : DBPre) : Int × String :=
  match getColdStatus db with
  | some p => p
  | none => (getLatestColdBlockHeight db, "")

/-- ClickhouseDatabase.clearAllHotTables: truncates every existing
hot-supported hot table (missing tables are skipped). -/
def clearAllHotTables (db : DBPre) : DBPre :=
  let cleared := db.hotTables.map
    (fun p => if db.migrateableTables.contains p.1 then (p.1, []) else p)
  { db with hotTables := cleared }

/-- ClickhouseDatabase.detectAndRollbackStaleHotBlocks: decides whether
the loaded live state is stale; if so clears the registry, truncates the
hot tables and writes the rolled-back live checkpoint, returning the new
state; otherwise leaves everything untouched and returns `none`. -/
def detectAndRollbackStaleHotBlocks (db : DBPre) (state : DatabaseState) :
    Option DatabaseState × DBPre :=
  let ch := coldCheckpoint db
  let hasHotBlocks := !state.top.isEmpty
  let heightBeyondCold := decide (ch.1 < state.height) && decide (0 ≤ ch.1)
  if !hasHotBlocks && !heightBeyondCold then
    (none, db)
  else
    let db1 := { db with registry := db.registry.clear }
    let db2 := clearAllHotTables db1
    let newState : DatabaseState :=
      { height := ch.1, hash := ch.2, top := [], finalizedHeight := some ch.1 }
    (some newState, saveStatus db2 newState)

/-- ClickhouseDatabase.getBlockHashForHeight: hot chain first, then the
registry map, then the representative cold table, then the
representative hot table; an empty hash column value is falsy and
treated as absent. -/
def getBlockHashForHeight (db : DBPre) (height : Int) : Option String :=
  match db.hotBlocks.find? (fun b => b.height == height) with
  | some b => some b.hash
  | none =>
    match mapGet db.registry.validBlocks height with
    | some h => some h
    | none =>
      match db.migrateableTables with
      | [] => none
      | rep :: _ =>
        let fromTable := fun (ts : List (String × List Row)) =>
          match tableLookup ts rep with
          | none => none
          | some rows =>
            match rows.find? (fun r => r.height == height) with
            | some r => if r.hash == "" then none else some r.hash
            | none => none
        match fromTable db.coldTables with
        | some h => some h
        | none => fromTable db.hotTables

/-- One iteration of the per-table migration loop: count the hot rows
at or below the cutoff, skip when zero, copy them into the cold table
and delete them from the hot table.  A missing hot table (count query
fails) or a missing cold table (copy fails) raises UNKNOWN_TABLE, which
the source catches and skips, leaving the accumulator untouched. -/
def migrateTablesStep (cutoff : Int)
    (acc : Int × List TableStat × List (String × List Row) × List (String × List Row))
    (t : String) :
    Int × List TableStat × List (String × List Row) × List (String × List Row) :=
  let (tot, res, hts, cts) := acc
  match tableLookup hts t with
  | none => acc
  | some rows =>
    let toMigrate := rows.filter (fun r => decide (r.height ≤ cutoff))
    if toMigrate.length = 0 then acc
    else
      match tableLookup cts t with
      | none => acc
      | some _ =>
        (tot + toMigrate.length,
         res ++ [{ name := t, rows := (toMigrate.length : Int) }],
         tableUpdate hts t (fun rs => rs.filter (fun r => !decide (r.height ≤ cutoff))),
         tableUpdate cts t (fun rs => rs ++ toMigrate))

/-- ClickhouseDatabase.migrateHotToCold. -/
def migrateHotToCold (db : DBPre) : MigrationResult × DBPre :=
  if !db.isAtChainTip then
    ({ migrated := 0, cutoffHeight := -1, tables := [] }, db)
  else
    match db.migrateableTables with
    | [] => ({ migrated := 0, cutoffHeight := -1, tables := [] }, db)
    | rep :: _ =>
      match tableLookup db.hotTables rep with
      | none => ({ migrated := 0, cutoffHeight := -1, tables := [] }, db)
      | some repRows =>
        let maxHeight := sqlMaxHeight repRows
        if maxHeight ≤ 0 then
          ({ migrated := 0, cutoffHeight := -1, tables := [] }, db)
        else
          let cutoffHeight := maxHeight - db.hotBlocksDepth
          if cutoffHeight ≤ db.lastMigrationHeight then
            ({ migrated := 0, cutoffHeight := cutoffHeight, tables := [] }, db)
          else
            let st := db.migrateableTables.foldl (migrateTablesStep cutoffHeight)
                        (0, [], db.hotTables, db.coldTables)
            let db1 := { db with
              hotTables := st.2.2.1
              coldTables := st.2.2.2
              lastMigrationHeight := cutoffHeight }
            let db2 :=
              match getBlockHashForHeight db1 cutoffHeight with
              | some h => { db1 with coldWrites := db1.coldWrites ++ [(cutoffHeight, h)] }
              | none => db1
            ({ migrated := st.1, cutoffHeight := cutoffHeight, tables := st.2.1 }, db2)

/-- The `MigrationContext` built at the top of
ClickhouseDatabase.performMigration.  The JavaScript expression
`this.hotBlocks[this.hotBlocks.length - 1]?.height || this.finalizedHeight`
falls back to the finalized height both when the chain is empty and
when the tip height is the falsy `0`. -/
def mkMigrationContext (db : DBPre) : MigCtx :=
  { currentHeight :=
      match db.hotBlocks.getLast? with
      | some b => if b.height == 0 then db.finalizedHeight else b.height
      | none => db.finalizedHeight
    finalizedHeight := db.finalizedHeight
    hotTableRows :=
      match db.migrateableTables with
      | [] => 0
      | rep :: _ =>
        match tableLookup db.hotTables rep with
        | none => 0
        | some rows => (rows.length : Int)
    blocksSinceLastMigration := db.blocksSinceLastMigration
    isAtChainTip := db.isAtChainTip }

/-- The tail of ClickhouseDatabase.performMigration once the
`beforeMigration` hook has allowed the run: execute the custom or the
default migration and reset `blocksSinceLastMigration`. -/
def performMigrationRun (hooks : Hooks) (db : DBPre) : DBPre × Bool :=
  let rd :=
    match hooks.customMigration with
    | some f => f db
    | none => migrateHotToCold db
  ({ rd.2 with blocksSinceLastMigration := 0 }, true)

/-- ClickhouseDatabase.performMigration, returning the new state and
whether the migration actually ran (false exactly on a veto, which
returns before the counter reset). -/
def performMigration (hooks : Hooks) (db : DBPre) : DBPre × Bool :=
  let ctx := mkMigrationContext db
  match hooks.beforeMigration with
  | some f => if !f ctx then (db, false) else performMigrationRun hooks db
  | none => performMigrationRun hooks db

/-- JavaScript `list.slice(s)` for a single (possibly negative) start
index; `List.drop` saturates exactly like the clamping in `slice`. -/
def jsSliceFrom (l : List BlockRef) (s : Int) : List BlockRef :=
  if s < 0 then l.drop (((l.length : Int) + s).toNat) else l.drop s.toNat

/-- ClickhouseDatabase.transactHot.  The per-block callback is modelled
by the data rows it buffers (`cb`), which the flush appends to the
data-table insert log; the transient-retry behaviour of the flush is
modelled separately by `flushChunkInsert`. -/
def transactHot (db : DBPre) (hooks : Hooks) (info : HotTxInfo)
    (cb : BlockRef → List String) : DBPre :=
  let previousFinalizedHeight := db.finalizedHeight
  let dbA :=
    if decide (db.finalizedHeight < info.finalizedHead.height) then
      { db with
        finalizedHeight := info.finalizedHead.height
        hotBlocks := db.hotBlocks.filter
          (fun b => decide (info.finalizedHead.height < b.height)) }
    else db
  let dbB :=
    if detectReorg dbA.hotBlocks info.newBlocks then
      let rollbackHeight := findCommonAncestor dbA.finalizedHeight dbA.hotBlocks info.newBlocks
      { dbA with
        registry := dbA.registry.handleReorg (rollbackHeight + 1)
          (info.newBlocks.map (fun b => { height := b.height, hash := b.hash }))
        hotBlocks := dbA.hotBlocks.filter (fun b => decide (b.height ≤ rollbackHeight)) }
    else dbA
  let dbC := info.newBlocks.foldl
    (fun db block =>
      let db := { db with dataWrites := db.dataWrites ++ cb block }
      let db :=
        if !db.registry.isValidBlock block.height block.hash then
          { db with registry := db.registry.addBlock block.height block.hash }
        else db
      { db with hotBlocks := db.hotBlocks ++ [block] })
    dbB
  let dbD :=
    if decide (dbC.hotBlocksDepth < (dbC.hotBlocks.length : Int)) then
      { dbC with hotBlocks := jsSliceFrom dbC.hotBlocks (-dbC.hotBlocksDepth) }
    else dbC
  let dbE :=
    match info.newBlocks.getLast? with
    | some lastBlock =>
      saveStatus dbD
        { height := lastBlock.height, hash := lastBlock.hash, top := dbD.hotBlocks }
    | none => dbD
  if dbE.autoMigrate && dbE.isAtChainTip then
    let dbF := { dbE with
      blocksSinceLastMigration := dbE.blocksSinceLastMigration + info.newBlocks.length }
    let shouldMigrate :=
      if dbF.migrationOnFinality then
        decide (previousFinalizedHeight < dbF.finalizedHeight)
      else
        decide (dbF.migrationInterval ≤ dbF.blocksSinceLastMigration)
    if shouldMigrate then (performMigration hooks dbF).1 else dbF
  else dbE

/-- A transport-level error as surfaced by the ClickHouse client: a
`code` (for example EPIPE) and a free-form message. -/
structure IoErr where
  code : String
  message : String
  deriving Repr, DecidableEq

/-- The retryable error codes listed in ClickhouseDatabase.flushStore. -/
def retryableCodes : List String :=
  ["EPIPE", "ECONNRESET", "ETIMEDOUT", "ECONNREFUSED"]

/-- JavaScript `s.includes(pat)` for a nonempty pattern: splitting on
the pattern yields more than one piece exactly when it occurs. -/
def strIncludes (s pat : String) : Bool :=
  (s.splitOn pat).length != 1

/-- The retry predicate of the flush:
`retryableCodes.includes(err.code) || err.message?.includes('socket hang up')`. -/
def isRetryableErr (e : IoErr) : Bool :=
  retryableCodes.contains e.code || strIncludes e.message "socket hang up"

/-- The attempt loop of one chunk insert in ClickhouseDatabase.flushStore
(`for attempt 1..3`): `outcome n` is the environment's response to the
n-th insert attempt (`none` is success).  Returns the propagated error,
if any, and the list of backoff delays (`500 * attempt` ms) that were
slept.  The fuel argument counts the remaining loop iterations and
starts at 3. -/
def insertAttempts (outcome : Nat → Option IoErr) : Nat → Nat → Option IoErr × List Nat
  | 0, _ => (none, [])
  | fuel + 1, attempt =>
    match outcome attempt with
    | none => (none, [])
    | some e =>
      if isRetryableErr e && decide (attempt < 3) then
        let rest := insertAttempts outcome fuel (attempt + 1)
        (rest.1, 500 * attempt :: rest.2)
      else
        (some e, [])

/-- One chunk insert with the flush retry policy: up to 3 total
attempts starting at attempt 1. -/
def flushChunkInsert (outcome : Nat → Option IoErr) : Option IoErr × List Nat :=
  insertAttempts outcome 3 1

/-! Concrete instances used by counterexamples and witnesses. -/

/-- Default-configuration database state with nothing persisted: at
chain tip, no discovered tables, empty registry and logs. -/
def dbBase : DBPre :=
  { isAtChainTip := true
    autoMigrate := true
    migrationOnFinality := false
    migrationInterval := 30
    hotBlocksDepth := 10
    migrateableTables := []
    hotBlocks := []
    finalizedHeight := -1
    registry := { finalityDepth := 10, validBlocks := [] }
    blocksSinceLastMigration := 0
    lastMigrationHeight := -1
    hotTables := []
    coldTables := []
    liveWrites := []
    coldWrites := []
    dataWrites := [] }

/-- Startup state for the C1 counterexample: no hot blocks, but a live
height beyond the (absent) cold data. -/
def stC1 : DatabaseState :=
  { height := 5, hash := "0xaa", top := [] }

/-- Database for the C1 witness: a cold checkpoint at height 3 and a
live state that still carries a hot block. -/
def dbC1w : DBPre :=
  { dbBase with
    migrateableTables := ["events"]
    hotTables := [("events", [{ height := 7, hash := "0xb7" }])]
    registry := { finalityDepth := 10, validBlocks := [(7, "0xb7")] }
    coldWrites := [(3, "0xc3")]
    finalizedHeight := 6 }

/-- Startup state for the C1 witness. -/
def stC1w : DatabaseState :=
  { height := 7, hash := "0xb7", top := [{ height := 7, hash := "0xb7" }],
    finalizedHeight := some 6 }

/-- Database for the C2 counterexample: the representative hot table
exists and is nonempty, but its only row sits at height 0. -/
def dbC2 : DBPre :=
  { dbBase with
    migrateableTables := ["events"]
    hotTables := [("events", [{ height := 0, hash := "0xgenesis" }])] }

/-- Database for the C2 witness: representative table with rows up to
height 40. -/
def dbC2w : DBPre :=
  { dbBase with
    migrateableTables := ["events"]
    hotTables := [("events",
      [{ height := 35, hash := "0x35" }, { height := 40, hash := "0x40" }])]
    coldTables := [("events", [])]
    lastMigrationHeight := 50 }

/-- Hot chain for the C3/C4 witnesses. -/
def hotW : List BlockRef :=
  [{ height := 100, hash := "0xa" }, { height := 101, hash := "0xb" },
   { height := 102, hash := "0xc" }]

/-- New batch for the C3/C4 witnesses: a reorg replacing block 102. -/
def newW : List BlockRef :=
  [{ height := 102, hash := "0xc2" }, { height := 103, hash := "0xd2" }]

/-- New batch sharing block 101 with `hotW`, for the C4 witness. -/
def newW4 : List BlockRef :=
  [{ height := 101, hash := "0xb" }, { height := 102, hash := "0xc2" }]

/-- Registry for the C5 counterexample: depth 2 with one entry at
height 8. -/
def regC5 : Registry :=
  { finalityDepth := 2, validBlocks := [(8, "0xh8")] }

/-- Registry for the C5/C6 witnesses. -/
def regW : Registry :=
  { finalityDepth := 2, validBlocks := [(8, "0xh8"), (9, "0xh9"), (10, "0xh10")] }

/-- Single replacement block at height 10 for the C6 witness. -/
def blkC6 : BlockRef :=
  { height := 10, hash := "0xnew10" }

/-- Hot chain with a producer-added BigInt field, for the C7 witness
discussion: raw serialization of this block fails, the sanitized one
cannot. -/
def stC7 : DatabaseState :=
  { height := 12, hash := "0x12",
    top := [{ height := 12, hash := "0x12", extra := [("baseFeePerGas", JVal.big 1000000000)] }] }

/-- Attempt outcomes for the C8 witness: transient failures on the
first two attempts, a non-transient failure on the third. -/
def outcomeC8 : Nat → Option IoErr :=
  fun n =>
    if n == 1 then some { code := "EPIPE", message := "broken pipe" }
    else if n == 2 then some { code := "ECONNRESET", message := "reset" }
    else some { code := "SYNTAX_ERROR", message := "bad query" }

/-- Hooks whose `beforeMigration` always vetoes, for the C9 witness. -/
def hooksVeto : Hooks :=
  { beforeMigration := some (fun _ => false) }

/-- Database for the C9 witness: the counter is nonzero so a reset
would be observable. -/
def dbC9w : DBPre :=
  { dbBase with blocksSinceLastMigration := 30 }

/-- Empty-batch hot transaction info for the C10 witness, carrying a
finality advance. -/
def infoC10 : HotTxInfo :=
  { finalizedHead := { height := 16, hash := "0x16" }
    baseHead := { height := 20, hash := "0x20" }
    newBlocks := [] }

/-- Database for the C10 witness: nonempty hot chain, registry and live
log, so all three frame conditions are observable. -/
def dbC10w : DBPre :=
  { dbBase with
    hotBlocks := [{ height := 20, hash := "0x20" }]
    registry := { finalityDepth := 10, validBlocks := [(20, "0x20")] }
    liveWrites := [{ height := 20, hash := "0x20", parent_hash := "",
                     hot_blocks := [{ height := 20, hash := "0x20" }],
                     finalized_height := 15 }]
    finalizedHeight := 15 }

/-! Helper lemmas about the JavaScript map model and list maxima. -/

theorem mapSet_of_forall_ne (m : List (Int × String)) (k : Int) (v : String)
    (h : ∀ p ∈ m, p.1 ≠ k) : mapSet m k v = m ++ [(k, v)] := by
  have hany : m.any (fun p => p.1 == k) = false := by
    rw [List.any_eq_false]
    intro p hp
    simpa using h p hp
  simp [mapSet, hany]

theorem mem_mapSet {m : List (Int × String)} {k : Int} {v : String} {p : Int × String}
    (hp : p ∈ mapSet m k v) : p ∈ m ∨ p = (k, v) := by
  unfold mapSet at hp
  split at hp
  · obtain ⟨q, hq, hqe⟩ := List.mem_map.mp hp
    by_cases hqk : q.1 == k
    · right
      rw [← hqe]
      simp [hqk]
    · left
      rw [← hqe]
      simpa [hqk] using hq
  · rcases List.mem_append.mp hp with h | h
    · left; exact h
    · right; simpa using h

theorem mem_foldl_mapSet :
    ∀ (bs : List BlockRef) (m : List (Int × String)) {p : Int × String},
      p ∈ bs.foldl (fun m b => mapSet m b.height b.hash) m →
      p ∈ m ∨ ∃ b ∈ bs, p = (b.height, b.hash) := by
  intro bs
  induction bs with
  | nil =>
    intro m p hp
    exact Or.inl hp
  | cons b t ih =>
    intro m p hp
    rcases ih (mapSet m b.height b.hash) hp with h | ⟨c, hc, hpc⟩
    · rcases mem_mapSet h with h' | h'
      · exact Or.inl h'
      · exact Or.inr ⟨b, List.mem_cons_self b t, h'⟩
    · exact Or.inr ⟨c, List.mem_cons_of_mem b hc, hpc⟩

theorem le_foldl_max : ∀ (t : List Int) (a : Int), a ≤ t.foldl max a := by
  intro t
  induction t with
  | nil => intro a; exact le_refl a
  | cons c t ih =>
    intro a
    exact le_trans (le_max_left a c) (ih (max a c))

theorem mem_le_foldl_max : ∀ (t : List Int) (a x : Int), x ∈ t → x ≤ t.foldl max a := by
  intro t
  induction t with
  | nil => intro a x hx; cases hx
  | cons c t ih =>
    intro a x hx
    rcases List.mem_cons.mp hx with h | h
    · subst h
      exact le_trans (le_max_right a x) (le_foldl_max t (max a x))
    · exact ih (max a c) x h

theorem le_listMax {l : List Int} {x : Int} (hx : x ∈ l) : x ≤ listMax l := by
  cases l with
  | nil => cases hx
  | cons h t =>
    rcases List.mem_cons.mp hx with h' | h'
    · subst h'
      exact le_foldl_max t x
    · exact mem_le_foldl_max t h x h'

/-- C3. A reorg is declared exactly when both the hot chain and the new
batch are nonempty and the first block of the new batch has height at or
below the height of the current hot-chain tip; in particular the empty
cases declare no reorg, and a hash mismatch at the tip's own height
satisfies this same height condition and nothing else is consulted. -/
theorem detectReorg_iff (hot nb : List BlockRef) :
    detectReorg hot nb = true ↔
      ∃ tip first, hot.getLast? = some tip ∧ nb.head? = some first ∧
        first.height ≤ tip.height := by
  cases hot with
  | nil => simp [detectReorg]
  | cons a t =>
    cases nb with
    | nil => simp [detectReorg]
    | cons n ns =>
      cases htip : (a :: t).getLast? with
      | none => exact absurd (List.getLast?_eq_none_iff.mp htip) (by simp)
      | some tip => simp [detectReorg, htip]

/-- Unfolding of one step of the common-ancestor fold. -/
theorem findCommonAncestor_cons (fin : Int) (hot : List BlockRef) (b : BlockRef)
    (t : List BlockRef) :
    findCommonAncestor fin hot (b :: t) =
      findCommonAncestor
        (if (hot.map BlockRef.hash).contains b.hash then max fin b.height else fin)
        hot t := rfl

theorem contains_hash_iff (hot : List BlockRef) (h : String) :
    (hot.map BlockRef.hash).contains h = true ↔ ∃ c ∈ hot, c.hash = h := by
  rw [show (hot.map BlockRef.hash).contains h = (hot.map BlockRef.hash).elem h from rfl]
  rw [List.elem_iff]
  exact List.mem_map

/-- C4. The common ancestor found for a hot chain and a new batch is at
least the finalized height, dominates the height of every new-batch
block whose hash occurs in the hot chain, and is either the finalized
height itself (no common block) or realized by such a common block. -/
theorem findCommonAncestor_spec (fin : Int) (hot nb : List BlockRef) :
    fin ≤ findCommonAncestor fin hot nb ∧
    (∀ b ∈ nb, (∃ c ∈ hot, c.hash = b.hash) →
      b.height ≤ findCommonAncestor fin hot nb) ∧
    (findCommonAncestor fin hot nb = fin ∨
      ∃ b ∈ nb, (∃ c ∈ hot, c.hash = b.hash) ∧
        b.height = findCommonAncestor fin hot nb) := by
  induction nb generalizing fin with
  | nil =>
    refine ⟨le_refl fin, ?_, Or.inl rfl⟩
    intro b hb
    cases hb
  | cons b t ih =>
    rw [findCommonAncestor_cons]
    by_cases hb : (hot.map BlockRef.hash).contains b.hash
    · rw [if_pos hb]
      obtain ⟨h1, h2, h3⟩ := ih (max fin b.height)
      refine ⟨le_trans (le_max_left fin b.height) h1, ?_, ?_⟩
      · intro x hx hcx
        rcases List.mem_cons.mp hx with h | h
        · subst h
          exact le_trans (le_max_right fin x.height) h1
        · exact h2 x h hcx
      · rcases h3 with h | ⟨x, hx, hcx, hhx⟩
        · rcases le_total b.height fin with hle | hle
          · rw [max_eq_left hle] at h ⊢
            exact Or.inl h
          · rw [max_eq_right hle] at h ⊢
            exact Or.inr ⟨b, List.mem_cons_self b t,
              (contains_hash_iff hot b.hash).mp hb, h.symm⟩
        · exact Or.inr ⟨x, List.mem_cons_of_mem b hx, hcx, hhx⟩
    · rw [if_neg hb]
      obtain ⟨h1, h2, h3⟩ := ih fin
      refine ⟨h1, ?_, ?_⟩
      · intro x hx hcx
        rcases List.mem_cons.mp hx with h | h
        · subst h
          exact absurd ((contains_hash_iff hot x.hash).mpr hcx) hb
        · exact h2 x h hcx
      · rcases h3 with h | ⟨x, hx, hcx, hhx⟩
        · exact Or.inl h
        · exact Or.inr ⟨x, List.mem_cons_of_mem b hx, hcx, hhx⟩

/-- C4 witness: on a concrete reorg batch sharing block 101 with the
hot chain the specification instance holds. -/
theorem findCommonAncestor_spec_witness :
    findCommonAncestor 99 hotW newW4 = 101 ∧ 99 ≤ findCommonAncestor 99 hotW newW4 :=
  ⟨by decide, (findCommonAncestor_spec 99 hotW newW4).1⟩

/-- C5 counterexample: with finality depth 2, adding block 10 to a
registry holding height 8 keeps the entry at height 8, which lies
outside the claimed window `[maxHeight - finalityDepth + 1, maxHeight]`
= `[9, 10]`. -/
theorem addBlock_window_cex :
    (8, "0xh8") ∈ (regC5.addBlock 10 "0xh10").validBlocks ∧
    ¬((10 : Int) - regC5.finalityDepth + 1 ≤ 8) := by
  constructor
  · decide
  · decide

/-- C5 (amended). After `addBlock` (resp. a nonempty `addBlocks`) on a
registry all of whose heights are at most the added height (resp. the
batch maximum), every remaining height lies in
`[maxHeight - finalityDepth, maxHeight]`: entries strictly below
`maxHeight - finalityDepth` are pruned, and the lower edge
`maxHeight - finalityDepth` itself is retained. -/
theorem registry_add_window :
    (∀ (r : Registry) (h : Int) (hs : String),
      (∀ p ∈ r.validBlocks, p.1 ≤ h) →
      ∀ p ∈ (r.addBlock h hs).validBlocks,
        h - r.finalityDepth ≤ p.1 ∧ p.1 ≤ h) ∧
    (∀ (r : Registry) (bs : List BlockRef),
      bs ≠ [] →
      (∀ p ∈ r.validBlocks, p.1 ≤ listMax (bs.map BlockRef.height)) →
      ∀ p ∈ (r.addBlocks bs).validBlocks,
        listMax (bs.map BlockRef.height) - r.finalityDepth ≤ p.1 ∧
          p.1 ≤ listMax (bs.map BlockRef.height)) := by
  constructor
  · intro r h hs hprev p hp
    simp only [Registry.addBlock, Registry.pruneOldBlocks] at hp
    obtain ⟨hmem, hkeep⟩ := List.mem_filter.mp hp
    have hlow : ¬(p.1 < h - r.finalityDepth) := by simpa using hkeep
    refine ⟨by omega, ?_⟩
    rcases mem_mapSet hmem with h' | h'
    · exact hprev p h'
    · simp [h']
  · intro r bs hne hprev p hp
    simp only [Registry.addBlocks] at hp
    rw [if_neg (by simpa using hne)] at hp
    simp only [Registry.pruneOldBlocks] at hp
    obtain ⟨hmem, hkeep⟩ := List.mem_filter.mp hp
    refine ⟨?_, ?_⟩
    · have : ¬(p.1 < listMax (bs.map BlockRef.height) - r.finalityDepth) := by
        simpa using hkeep
      omega
    · rcases mem_foldl_mapSet bs r.validBlocks hmem with h' | ⟨b, hb, hpb⟩
      · exact hprev p h'
      · rw [hpb]
        exact le_listMax (List.mem_map.mpr ⟨b, hb, rfl⟩)

/-- C5 witness: concrete window check for both add operations. -/
theorem registry_add_window_witness :
    (∀ p ∈ (regW.addBlock 11 "0xh11").validBlocks,
      11 - regW.finalityDepth ≤ p.1 ∧ p.1 ≤ 11) ∧
    (∀ p ∈ (regW.addBlocks [blkC6]).validBlocks,
      listMax ([blkC6].map BlockRef.height) - regW.finalityDepth ≤ p.1 ∧
        p.1 ≤ listMax ([blkC6].map BlockRef.height)) :=
  ⟨registry_add_window.1 regW 11 "0xh11" (by decide),
   registry_add_window.2 regW [blkC6] (by decide) (by decide)⟩

/-- Closed form of a singleton `handleReorg`: drop everything at or
above the reorg height, append the replacement block, prune below
`k - finalityDepth`. -/
theorem handleReorg_singleton_eq (d k : Int) (b : BlockRef) (hb : b.height = k)
    (vb : List (Int × String)) :
    Registry.handleReorg ⟨d, vb⟩ k [b] =
      ⟨d, (vb.filter (fun p => !decide (k ≤ p.1))).filter
            (fun p => !decide (p.1 < k - d))
          ++ List.filter (fun p => !decide (p.1 < k - d)) [(k, b.hash)]⟩ := by
  subst hb
  have hset : mapSet (vb.filter (fun p => !decide (b.height ≤ p.1))) b.height b.hash =
      vb.filter (fun p => !decide (b.height ≤ p.1)) ++ [(b.height, b.hash)] := by
    apply mapSet_of_forall_ne
    intro p hp
    have hlt : p.1 < b.height := by simpa using (List.mem_filter.mp hp).2
    omega
  simp only [Registry.handleReorg, Registry.addBlocks, Registry.pruneOldBlocks,
    List.isEmpty_cons, Bool.false_eq_true, if_false, List.foldl_cons, List.foldl_nil,
    List.map_cons, List.map_nil, hset, listMax, List.filter_append]

/-- C6. Applying `handleReorg` at height `k` with the single
replacement block `b_k` twice leaves the registry exactly as one
application does. -/
theorem handleReorg_idempotent (r : Registry) (k : Int) (b : BlockRef)
    (hb : b.height = k) :
    (r.handleReorg k [b]).handleReorg k [b] = r.handleReorg k [b] := by
  obtain ⟨d, vb⟩ := r
  rw [handleReorg_singleton_eq d k b hb vb, handleReorg_singleton_eq d k b hb _]
  congr 1
  have hsingle : List.filter (fun p => !decide (k ≤ p.1))
      (List.filter (fun p : Int × String => !decide (p.1 < k - d)) [(k, b.hash)]) = [] := by
    rw [List.filter_filter]
    simp
  rw [List.filter_append, List.filter_append, hsingle]
  simp only [List.filter_nil, List.append_nil]
  congr 1
  simp only [List.filter_filter]
  apply List.filter_congr
  intro p _
  cases hq : decide (p.1 < k - d) <;> cases hk : decide (k ≤ p.1) <;> simp [hq, hk]

/-- C6 witness: idempotence at a concrete registry and replacement
block. -/
theorem handleReorg_idempotent_witness :
    (regW.handleReorg 10 [blkC6]).handleReorg 10 [blkC6] = regW.handleReorg 10 [blkC6] :=
  handleReorg_idempotent regW 10 blkC6 rfl

/-- C3 witness: a concrete batch starting at the tip height is flagged
as a reorg through the height condition. -/
theorem detectReorg_iff_witness : detectReorg hotW newW = true :=
  (detectReorg_iff hotW newW).mpr
    ⟨{ height := 102, hash := "0xc" }, { height := 102, hash := "0xc2" },
      by decide, by decide, by decide⟩

theorem seqStrings_cons_some (s : String) (rest : List (Option String)) :
    seqStrings (some s :: rest) = (seqStrings rest).map (fun t => s :: t) := rfl

theorem objectString_sanitized_isSome :
    ∀ (l : List SanBlock),
      (seqStrings ((l.map sanitizedBlockFields).map objectString?)).isSome = true := by
  intro l
  induction l with
  | nil => rfl
  | cons s t ih =>
    have hx : objectString? (sanitizedBlockFields s) =
        some ("\x7b" ++ String.intercalate ","
          (("\"height\":" ++ toString s.height)
            :: ("\"hash\":" ++ ("\"" ++ s.hash ++ "\"")) :: []) ++ "\x7d") := rfl
    obtain ⟨ys, hys⟩ := Option.isSome_iff_exists.mp ih
    rw [List.map_cons, List.map_cons, hx, seqStrings_cons_some, hys]
    rfl

/-- C7. The hot-chain entries persisted by `saveStatus` carry exactly
the two fields `height` and `hash` (every producer-added field is
stripped by the sanitization), and the text serialization of the
sanitized hot chain always succeeds: no `BigInt` ever reaches
`JSON.stringify`. -/
theorem saveStatus_hotBlocks_sanitized (state : DatabaseState) :
    (state.top.map sanitizeBlock).map sanitizedBlockFields =
      state.top.map
        (fun b => [("height", JVal.num b.height), ("hash", JVal.str b.hash)]) ∧
    (saveStatusHotBlocksJson? state).isSome = true := by
  constructor
  · rw [List.map_map]
    rfl
  · unfold saveStatusHotBlocksJson? arrayString?
    obtain ⟨v, hv⟩ := Option.isSome_iff_exists.mp
      (objectString_sanitized_isSome (state.top.map sanitizeBlock))
    rw [hv]
    rfl

/-- C7 witness: on a state whose hot block carries a producer-added
BigInt field the sanitized serialization succeeds, while the raw field
list of the same block would make serialization fail. -/
theorem saveStatus_hotBlocks_sanitized_witness :
    (saveStatusHotBlocksJson? stC7).isSome = true ∧
    arrayString? (stC7.top.map rawBlockFields) = none :=
  ⟨(saveStatus_hotBlocks_sanitized stC7).2, by decide⟩

/-- C8. One chunk insert of the flush: a first-attempt success inserts
without delay; a non-transient error propagates immediately with no
retry; transient errors are retried with linear backoff 500 ms then
1000 ms, for at most 3 total attempts; a non-transient error on a later
attempt, or a transient error on the third attempt, propagates. -/
theorem flushChunkInsert_spec :
    (∀ o : Nat → Option IoErr, o 1 = none → flushChunkInsert o = (none, [])) ∧
    (∀ (o : Nat → Option IoErr) e, o 1 = some e → isRetryableErr e = false →
      flushChunkInsert o = (some e, [])) ∧
    (∀ (o : Nat → Option IoErr) e₁, o 1 = some e₁ → isRetryableErr e₁ = true →
      o 2 = none → flushChunkInsert o = (none, [500])) ∧
    (∀ (o : Nat → Option IoErr) e₁ e₂, o 1 = some e₁ → isRetryableErr e₁ = true →
      o 2 = some e₂ → isRetryableErr e₂ = false →
      flushChunkInsert o = (some e₂, [500])) ∧
    (∀ (o : Nat → Option IoErr) e₁ e₂, o 1 = some e₁ → isRetryableErr e₁ = true →
      o 2 = some e₂ → isRetryableErr e₂ = true → o 3 = none →
      flushChunkInsert o = (none, [500, 1000])) ∧
    (∀ (o : Nat → Option IoErr) e₁ e₂ e₃, o 1 = some e₁ → isRetryableErr e₁ = true →
      o 2 = some e₂ → isRetryableErr e₂ = true → o 3 = some e₃ →
      flushChunkInsert o = (some e₃, [500, 1000])) := by
  refine ⟨?_, ?_, ?_, ?_, ?_, ?_⟩
  · intro o h1
    simp [flushChunkInsert, insertAttempts, h1]
  · intro o e h1 hr
    simp [flushChunkInsert, insertAttempts, h1, hr]
  · intro o e₁ h1 hr1 h2
    simp [flushChunkInsert, insertAttempts, h1, hr1, h2]
  · intro o e₁ e₂ h1 hr1 h2 hr2
    simp [flushChunkInsert, insertAttempts, h1, hr1, h2, hr2]
  · intro o e₁ e₂ h1 hr1 h2 hr2 h3
    simp [flushChunkInsert, insertAttempts, h1, hr1, h2, hr2, h3]
  · intro o e₁ e₂ e₃ h1 hr1 h2 hr2 h3
    simp [flushChunkInsert, insertAttempts, h1, hr1, h2, hr2, h3]

/-- C8 witness: two transient failures then a non-transient one yield
the final error after the 500 ms and 1000 ms backoffs. -/
theorem flushChunkInsert_spec_witness :
    flushChunkInsert outcomeC8 =
      (some { code := "SYNTAX_ERROR", message := "bad query" }, [500, 1000]) :=
  flushChunkInsert_spec.2.2.2.2.2 outcomeC8
    { code := "EPIPE", message := "broken pipe" }
    { code := "ECONNRESET", message := "reset" }
    { code := "SYNTAX_ERROR", message := "bad query" }
    rfl (by decide) rfl (by decide) rfl

/-- C9. A vetoed migration run leaves the whole database state (and in
particular `blocksSinceLastMigration`) unchanged and migrates nothing;
the counter is reset to 0 exactly on runs that were not vetoed. -/
theorem performMigration_veto_spec :
    (∀ (hooks : Hooks) (db : DBPre) (f : MigCtx → Bool),
      hooks.beforeMigration = some f → f (mkMigrationContext db) = false →
      performMigration hooks db = (db, false)) ∧
    (∀ (hooks : Hooks) (db : DBPre),
      (performMigration hooks db).2 = true →
      (performMigration hooks db).1.blocksSinceLastMigration = 0) := by
  constructor
  · intro hooks db f hf hv
    simp [performMigration, hf, hv]
  · intro hooks db
    unfold performMigration
    cases hb : hooks.beforeMigration with
    | none =>
      intro _
      simp [performMigrationRun]
    | some f =>
      cases hv : f (mkMigrationContext db) with
      | false => simp [hv]
      | true =>
        intro _
        simp [hv, performMigrationRun]

/-- C9 witness: an always-vetoing hook leaves a database with a nonzero
counter untouched. -/
theorem performMigration_veto_spec_witness :
    performMigration hooksVeto dbC9w = (dbC9w, false) :=
  performMigration_veto_spec.1 hooksVeto dbC9w (fun _ => false) rfl rfl

/-- C1 counterexample: with no cold checkpoint and no cold data the
computed cold height is `-1`; a live state at height 5 with no hot
blocks violates `live.height ≤ cold.height`, yet the reconciler leaves
everything unchanged, contradicting the claimed "exactly when". -/
theorem detectAndRollback_cex :
    (detectAndRollbackStaleHotBlocks dbBase stC1).1 = none ∧
    (detectAndRollbackStaleHotBlocks dbBase stC1).2 = dbBase ∧
    stC1.top = [] ∧ ¬(stC1.height ≤ (coldCheckpoint dbBase).1) := by
  refine ⟨by decide, by decide, by decide, by decide⟩

/-- C1 (amended). The stale-restart reconciler leaves all state
unchanged exactly when the live checkpoint's hot-block list is empty
and, in addition, either `live.height ≤ cold.height` or there is no
cold data at all (`cold.height < 0`); in every other case it clears the
valid-blocks registry, truncates every existing hot-supported hot
table, and calls saveLive with the state
`{height: cold.height, hash: cold.hash, hotBlocks: [], finalizedHeight: cold.height}`,
persisting a row with that height, hash and an empty hot-block list. -/
theorem detectAndRollback_spec (db : DBPre) (state : DatabaseState) :
    ((detectAndRollbackStaleHotBlocks db state).1 = none ↔
      state.top = [] ∧
        (state.height ≤ (coldCheckpoint db).1 ∨ (coldCheckpoint db).1 < 0)) ∧
    ((detectAndRollbackStaleHotBlocks db state).1 = none →
      (detectAndRollbackStaleHotBlocks db state).2 = db) ∧
    (∀ ns, (detectAndRollbackStaleHotBlocks db state).1 = some ns →
      ns = { height := (coldCheckpoint db).1, hash := (coldCheckpoint db).2,
             top := [], finalizedHeight := some (coldCheckpoint db).1 } ∧
      (detectAndRollbackStaleHotBlocks db state).2.registry.validBlocks = [] ∧
      (∀ q ∈ (detectAndRollbackStaleHotBlocks db state).2.hotTables,
        q.1 ∈ db.migrateableTables → q.2 = []) ∧
      (detectAndRollbackStaleHotBlocks db state).2.liveWrites =
        db.liveWrites ++
          [{ height := (coldCheckpoint db).1, hash := (coldCheckpoint db).2,
             parent_hash := "", hot_blocks := [],
             finalized_height := db.finalizedHeight }]) := by
  by_cases hcond :
      (!(!state.top.isEmpty) &&
        !(decide ((coldCheckpoint db).1 < state.height) &&
          decide (0 ≤ (coldCheckpoint db).1))) = true
  · have hres : detectAndRollbackStaleHotBlocks db state = (none, db) := by
      unfold detectAndRollbackStaleHotBlocks
      rw [if_pos hcond]
    rw [hres]
    simp only [Bool.and_eq_true, Bool.not_eq_true', Bool.not_eq_false,
      List.isEmpty_iff, Bool.and_eq_false_iff, decide_eq_false_iff_not,
      Int.not_lt, Int.not_le] at hcond
    refine ⟨?_, fun _ => rfl, ?_⟩
    · simpa using hcond
    · intro ns hns
      exact absurd hns (by simp)
  · have hres : detectAndRollbackStaleHotBlocks db state =
        (some { height := (coldCheckpoint db).1, hash := (coldCheckpoint db).2,
                top := [], finalizedHeight := some (coldCheckpoint db).1 },
         saveStatus (clearAllHotTables { db with registry := db.registry.clear })
           { height := (coldCheckpoint db).1, hash := (coldCheckpoint db).2,
             top := [], finalizedHeight := some (coldCheckpoint db).1 }) := by
      unfold detectAndRollbackStaleHotBlocks
      rw [if_neg hcond]
    rw [hres]
    simp only [Bool.and_eq_true, Bool.not_eq_true', Bool.not_eq_false,
      List.isEmpty_iff, Bool.and_eq_false_iff, decide_eq_false_iff_not,
      Int.not_lt, Int.not_le, not_and_or] at hcond
    refine ⟨?_, ?_, ?_⟩
    · constructor
      · intro h
        exact absurd h (by simp)
      · intro h
        rcases hcond with hc | hc
        · rw [h.1] at hc
          exact absurd hc (by simp)
        · exact absurd h.2 hc
    · intro h
      exact absurd h (by simp)
    · intro ns hns
      have hns' : ns = { height := (coldCheckpoint db).1, hash := (coldCheckpoint db).2,
                         top := [], finalizedHeight := some (coldCheckpoint db).1 } := by
        exact (Option.some_inj.mp hns).symm
      refine ⟨hns', rfl, ?_, rfl⟩
      intro q hq hmem
      simp only [saveStatus, clearAllHotTables] at hq
      obtain ⟨orig, horig, hfq⟩ := List.mem_map.mp hq
      by_cases hc : db.migrateableTables.contains orig.1
      · rw [if_pos hc] at hfq
        rw [← hfq]
      · rw [if_neg hc] at hfq
        rw [← hfq] at hmem
        exact absurd (List.elem_iff.mpr hmem) hc

/-- C1 witness: a database with a cold checkpoint at height 3 and a
live state still carrying a hot block is rolled back: registry cleared
and the rolled-back checkpoint row appended. -/
theorem detectAndRollback_spec_witness :
    (detectAndRollbackStaleHotBlocks dbC1w stC1w).2.registry.validBlocks = [] ∧
    (detectAndRollbackStaleHotBlocks dbC1w stC1w).2.liveWrites =
      dbC1w.liveWrites ++
        [{ height := 3, hash := "0xc3", parent_hash := "", hot_blocks := [],
           finalized_height := 6 }] := by
  have h := (detectAndRollback_spec dbC1w stC1w).2.2
    { height := 3, hash := "0xc3", top := [], finalizedHeight := some 3 } (by decide)
  exact ⟨h.2.1, h.2.2.2⟩

/-- C2 counterexample: at chain tip, the representative hot table
exists and is nonempty but its height column tops out at 0; the code
returns cutoff `-1` instead of the claimed
`maxHeight - hotBlocksDepth = 0 - 10 = -10`. -/
theorem migrateHotToCold_cex :
    dbC2.isAtChainTip = true ∧
    tableLookup dbC2.hotTables "events" = some [{ height := 0, hash := "0xgenesis" }] ∧
    (migrateHotToCold dbC2).1 = { migrated := 0, cutoffHeight := -1, tables := [] } ∧
    ¬((-1 : Int) = 0 - dbC2.hotBlocksDepth) := by
  refine ⟨by decide, by decide, by decide, by decide⟩

/-- C2 (amended). At chain tip: when the representative hot-supported
table is missing, or its height column has maximum at most 0 (in
particular when it is empty), the call is a no-op returning
`{migrated: 0, cutoff: -1}` and changes nothing; when the maximum
height is positive the returned cutoff equals
`maxHeight - hotBlocksDepth`, and if that cutoff is at most
`lastMigrationHeight` the call migrates nothing and changes nothing. -/
theorem migrateHotToCold_spec (db : DBPre) (rep : String) (rest : List String)
    (htip : db.isAtChainTip = true) (htab : db.migrateableTables = rep :: rest) :
    (tableLookup db.hotTables rep = none →
      migrateHotToCold db = ({ migrated := 0, cutoffHeight := -1, tables := [] }, db)) ∧
    (∀ rows, tableLookup db.hotTables rep = some rows → sqlMaxHeight rows ≤ 0 →
      migrateHotToCold db = ({ migrated := 0, cutoffHeight := -1, tables := [] }, db)) ∧
    (∀ rows, tableLookup db.hotTables rep = some rows → 0 < sqlMaxHeight rows →
      (migrateHotToCold db).1.cutoffHeight = sqlMaxHeight rows - db.hotBlocksDepth ∧
      (sqlMaxHeight rows - db.hotBlocksDepth ≤ db.lastMigrationHeight →
        migrateHotToCold db =
          ({ migrated := 0, cutoffHeight := sqlMaxHeight rows - db.hotBlocksDepth,
             tables := [] }, db))) := by
  have hnotip : (!db.isAtChainTip) = false := by rw [htip]; rfl
  refine ⟨?_, ?_, ?_⟩
  · intro hnone
    unfold migrateHotToCold
    rw [hnotip, htab]
    simp only [Bool.false_eq_true, if_false, hnone]
  · intro rows hsome hle
    unfold migrateHotToCold
    rw [hnotip, htab]
    simp only [Bool.false_eq_true, if_false, hsome]
    rw [if_pos hle]
  · intro rows hsome hpos
    have hnle : ¬(sqlMaxHeight rows ≤ 0) := not_le.mpr hpos
    constructor
    · unfold migrateHotToCold
      rw [hnotip, htab]
      simp only [Bool.false_eq_true, if_false, hsome]
      rw [if_neg hnle]
      by_cases hlast : sqlMaxHeight rows - db.hotBlocksDepth ≤ db.lastMigrationHeight
      · rw [if_pos hlast]
      · rw [if_neg hlast]
    · intro hlast
      unfold migrateHotToCold
      rw [hnotip, htab]
      simp only [Bool.false_eq_true, if_false, hsome]
      rw [if_neg hnle, if_pos hlast]

/-- C2 witness: maximum hot height 40, depth 10, last migration at 50:
the cutoff 30 has not advanced past the last migration, so the call
migrates nothing. -/
theorem migrateHotToCold_spec_witness :
    migrateHotToCold dbC2w =
      ({ migrated := 0,
         cutoffHeight :=
           sqlMaxHeight [{ height := 35, hash := "0x35" }, { height := 40, hash := "0x40" }]
             - dbC2w.hotBlocksDepth,
         tables := [] }, dbC2w) :=
  ((migrateHotToCold_spec dbC2w "events" [] rfl rfl).2.2
    [{ height := 35, hash := "0x35" }, { height := 40, hash := "0x40" }]
    (by decide) (by decide)).2 (by decide)

/-- The default migration touches only the data tables, the migration
bookkeeping and the cold checkpoint: the live log, the hot chain and
the registry are untouched. -/
theorem migrateHotToCold_frame (db : DBPre) :
    (migrateHotToCold db).2.liveWrites = db.liveWrites ∧
    (migrateHotToCold db).2.hotBlocks = db.hotBlocks ∧
    (migrateHotToCold db).2.registry = db.registry := by
  refine ⟨?_, ?_, ?_⟩ <;>
    · unfold migrateHotToCold
      dsimp only
      repeat' split
      all_goals rfl

/-- A non-custom migration run (vetoed or not) touches neither the live
log, nor the hot chain, nor the registry. -/
theorem performMigration_frame (hooks : Hooks) (db : DBPre)
    (hcustom : hooks.customMigration = none) :
    (performMigration hooks db).1.liveWrites = db.liveWrites ∧
    (performMigration hooks db).1.hotBlocks = db.hotBlocks ∧
    (performMigration hooks db).1.registry = db.registry := by
  obtain ⟨h1, h2, h3⟩ := migrateHotToCold_frame db
  unfold performMigration performMigrationRun
  rw [hcustom]
  cases hb : hooks.beforeMigration with
  | none => exact ⟨h1, h2, h3⟩
  | some f =>
    cases hv : f (mkMigrationContext db) with
    | false => simp [hv]
    | true =>
      simp only [hv, Bool.not_true, Bool.false_eq_true, if_false]
      exact ⟨h1, h2, h3⟩

theorem detectReorg_nil_right (hot : List BlockRef) : detectReorg hot [] = false := by
  simp [detectReorg]

theorem jsSliceFrom_sublist (l : List BlockRef) (s : Int) : (jsSliceFrom l s).Sublist l := by
  unfold jsSliceFrom
  split
  · exact List.drop_sublist _ l
  · exact List.drop_sublist _ l

theorem sublist_of_eq_sublist {A B C : List BlockRef} (h : A = B) (hs : B.Sublist C) :
    A.Sublist C := h ▸ hs

/-- C10. A `transactHot` call with an empty `newBlocks` list (and no
custom migration installed) writes no live-checkpoint revision, appends
no block to the hot chain (it can only shrink), and inserts nothing
into the valid-blocks registry. -/
theorem transactHot_empty_frame (db : DBPre) (hooks : Hooks) (fh bh : BlockRef)
    (cb : BlockRef → List String) (hcustom : hooks.customMigration = none) :
    (transactHot db hooks { finalizedHead := fh, baseHead := bh, newBlocks := [] } cb).liveWrites
        = db.liveWrites ∧
    ((transactHot db hooks { finalizedHead := fh, baseHead := bh, newBlocks := [] } cb).hotBlocks).Sublist
        db.hotBlocks ∧
    ∀ p ∈ (transactHot db hooks
        { finalizedHead := fh, baseHead := bh, newBlocks := [] } cb).registry.validBlocks,
      p ∈ db.registry.validBlocks := by
  unfold transactHot
  dsimp only
  simp only [detectReorg_nil_right, Bool.false_eq_true, if_false, List.foldl_nil,
    List.getLast?_nil, List.length_nil, Nat.cast_zero, add_zero]
  refine ⟨?_, ?_, ?_⟩
  · repeat' split
    all_goals first
      | rfl
      | exact (performMigration_frame hooks _ hcustom).1
  · repeat' split
    all_goals first
      | exact List.Sublist.refl _
      | exact List.filter_sublist _
      | exact jsSliceFrom_sublist _ _
      | exact List.Sublist.trans (jsSliceFrom_sublist _ _) (List.filter_sublist _)
      | exact sublist_of_eq_sublist (performMigration_frame hooks _ hcustom).2.1
          (List.Sublist.refl _)
      | exact sublist_of_eq_sublist (performMigration_frame hooks _ hcustom).2.1
          (List.filter_sublist _)
      | exact sublist_of_eq_sublist (performMigration_frame hooks _ hcustom).2.1
          (jsSliceFrom_sublist _ _)
      | exact sublist_of_eq_sublist (performMigration_frame hooks _ hcustom).2.1
          (List.Sublist.trans (jsSliceFrom_sublist _ _) (List.filter_sublist _))
  · repeat' split
    all_goals first
      | exact fun p hp => hp
      | (intro p hp
         rw [(performMigration_frame hooks _ hcustom).2.2] at hp
         exact hp)

/-- C10 witness: a concrete empty-batch call with a finality advance
leaves the live log unchanged and only shrinks the hot chain. -/
theorem transactHot_empty_frame_witness :
    (transactHot dbC10w { } infoC10 (fun _ => [])).liveWrites = dbC10w.liveWrites ∧
    ∀ p ∈ (transactHot dbC10w { } infoC10 (fun _ => [])).registry.validBlocks,
      p ∈ dbC10w.registry.validBlocks := by
  have h := transactHot_empty_frame dbC10w { } { height := 16, hash := "0x16" }
    { height := 20, hash := "0x20" } (fun _ => []) rfl
  exact ⟨h.1, h.2.2⟩

end ClickhouseSubsquid
